import Mathlib

/-!
# A verification model of `fund_crawler.py` (innocanca/fund_tools)

This file shallowly embeds the historical-data retrieval pipeline of
`FundCrawler` (file `fund_crawler.py`):

* a JSON value type and an executable parser modelling `json.loads`
  (objects, arrays, strings with the common escapes, decimal numbers
  without exponents, `true`/`false`/`null` — the fragment exercised by
  the endpoints this crawler talks to);
* Python-semantics helpers: truthiness, `float(...)` coercion,
  `str.find` / `str.rfind`, `str.replace`, `dict.get`;
* the four provider adapters (`_get_history_from_akshare`,
  `_get_history_from_eastmoney_new`, `_get_history_from_eastmoney_old`,
  `_get_history_from_sina`), with the HTTP transport abstracted as an
  oracle (one outcome per attempt) and network side effects tracked by
  an explicit call counter;
* the fallback orchestrator `get_fund_history_data` over a list of
  provider outcomes, tracking how many providers were invoked;
* the quick-quote fetch `get_fund_basic_info`.

Dates are encoded as `y * 10000 + m * 100 + d : Nat`, so that `≤` on the
encoding agrees with chronological order.  Numeric cell values are exact
decimals `man / 10 ^ exp` (`Dec`): the feeds emit decimal text, and the
pipeline never does arithmetic on a parsed value — it only tests it
against zero — so this representation models the `float` cells exactly.
-/

namespace FundCrawler

/-- An exact decimal `man / 10 ^ exp`, the value Python `float` gives the
decimal text forms these feeds emit (`"1.234"`, `"0"`, `"-0.49"`). -/
structure Dec where
  man : Int
  exp : Nat
deriving DecidableEq, Repr

/-- Zero test (numeric truthiness and `x == 0` comparisons). -/
def Dec.isZero (d : Dec) : Bool := d.man == 0

/-- JSON values as decoded by `json.loads`. -/
inductive Json where
  | null : Json
  | bool (b : Bool) : Json
  | num (q : Dec) : Json
  | str (s : String) : Json
  | arr (xs : List Json) : Json
  | obj (fields : List (String × Json)) : Json

/-- Whitespace skipped by the JSON grammar. -/
def skipWs (cs : List Char) : List Char :=
  cs.dropWhile (fun c => c == ' ' || c == '\t' || c == '\n' || c == '\r')

/-- Numeric value of a digit list (most significant first); `[]` gives `0`. -/
def natVal (cs : List Char) : Nat :=
  cs.foldl (fun acc c => acc * 10 + (c.toNat - 48)) 0

/-- The decimal given by a sign, integer digits and fraction digits. -/
def mkDec (sgn : Int) (ip fp : List Char) : Dec :=
  ⟨sgn * ((natVal ip * 10 ^ fp.length + natVal fp : Nat) : Int), fp.length⟩

/-- JSON string-escape map (the common single-character escapes). -/
def escMap (c : Char) : Option Char :=
  if c = '"' then some '"'
  else if c = '\\' then some '\\'
  else if c = '/' then some '/'
  else if c = 'n' then some '\n'
  else if c = 't' then some '\t'
  else if c = 'r' then some '\r'
  else none

/-- Parse the body of a JSON string after the opening quote; returns the
decoded content and the remaining input after the closing quote. -/
def jsonStr : Nat → List Char → Option (List Char × List Char)
  | 0, _ => none
  | _ + 1, [] => none
  | fuel + 1, c :: cs =>
    if c = '"' then some ([], cs)
    else if c = '\\' then
      match cs with
      | [] => none
      | e :: cs2 =>
        match escMap e with
        | none => none
        | some ch => (jsonStr fuel cs2).map (fun p => (ch :: p.1, p.2))
    else (jsonStr fuel cs).map (fun p => (c :: p.1, p.2))

/-- Parse a JSON number (optional minus, integer part, optional fraction;
exponents are not modelled — none of the feeds use them). -/
def jsonNum (cs : List Char) : Option (Dec × List Char) :=
  let sr : Int × List Char :=
    match cs with
    | '-' :: t => (-1, t)
    | t => (1, t)
  let ip := sr.2.takeWhile (fun c => c.isDigit)
  let r2 := sr.2.dropWhile (fun c => c.isDigit)
  if ip = [] then none
  else
    match r2 with
    | '.' :: r3 =>
      let fp := r3.takeWhile (fun c => c.isDigit)
      let r4 := r3.dropWhile (fun c => c.isDigit)
      if fp = [] then none
      else some (mkDec sr.1 ip fp, r4)
    | _ => some (mkDec sr.1 ip [], r2)

mutual

/-- Parse one JSON value. -/
def jsonVal : Nat → List Char → Option (Json × List Char)
  | 0, _ => none
  | fuel + 1, cs =>
    match skipWs cs with
    | [] => none
    | c :: rest =>
      if c = '"' then
        (jsonStr fuel rest).map (fun p => (Json.str (String.mk p.1), p.2))
      else if c = '{' then
        match skipWs rest with
        | '}' :: r2 => some (Json.obj [], r2)
        | r2 => (jsonMembers fuel r2).map (fun p => (Json.obj p.1, p.2))
      else if c = '[' then
        match skipWs rest with
        | ']' :: r2 => some (Json.arr [], r2)
        | r2 => (jsonElems fuel r2).map (fun p => (Json.arr p.1, p.2))
      else if ['t', 'r', 'u', 'e'].isPrefixOf (c :: rest) then
        some (Json.bool true, (c :: rest).drop 4)
      else if ['f', 'a', 'l', 's', 'e'].isPrefixOf (c :: rest) then
        some (Json.bool false, (c :: rest).drop 5)
      else if ['n', 'u', 'l', 'l'].isPrefixOf (c :: rest) then
        some (Json.null, (c :: rest).drop 4)
      else
        (jsonNum (c :: rest)).map (fun p => (Json.num p.1, p.2))
termination_by structural fuel cs => fuel

/-- Parse the members of a JSON object, up to and including the closing brace. -/
def jsonMembers : Nat → List Char → Option (List (String × Json) × List Char)
  | 0, _ => none
  | fuel + 1, cs =>
    match skipWs cs with
    | '"' :: r =>
      match jsonStr fuel r with
      | none => none
      | some (key, r2) =>
        match skipWs r2 with
        | ':' :: r3 =>
          match jsonVal fuel r3 with
          | none => none
          | some (v, r4) =>
            match skipWs r4 with
            | ',' :: r5 =>
              (jsonMembers fuel r5).map (fun p => ((String.mk key, v) :: p.1, p.2))
            | '}' :: r5 => some ([(String.mk key, v)], r5)
            | _ => none
        | _ => none
    | _ => none
termination_by structural fuel cs => fuel

/-- Parse the elements of a JSON array, up to and including the closing bracket. -/
def jsonElems : Nat → List Char → Option (List Json × List Char)
  | 0, _ => none
  | fuel + 1, cs =>
    match jsonVal fuel cs with
    | none => none
    | some (v, r) =>
      match skipWs r with
      | ',' :: r2 => (jsonElems fuel r2).map (fun p => (v :: p.1, p.2))
      | ']' :: r2 => some ([v], r2)
      | _ => none
termination_by structural fuel cs => fuel

end

/-- `json.loads`: parse a complete JSON document (trailing whitespace only). -/
def jsonParse (cs : List Char) : Option Json :=
  match jsonVal (cs.length + 2) cs with
  | some (v, rest) => if skipWs rest = [] then some v else none
  | none => none

/-! ## Python semantics helpers -/

/-- Python truthiness of a JSON-decoded value (`bool(x)`). -/
def pyTruthy : Json → Bool
  | Json.null => false
  | Json.bool b => b
  | Json.num q => !q.isZero
  | Json.str s => decide (s ≠ "")
  | Json.arr xs => !xs.isEmpty
  | Json.obj fs => !fs.isEmpty

/-- Python `float(text)` on the decimal forms the feeds emit: optional sign,
digits, optional fractional part (`"1"`, `"1.234"`, `"-0.49"`, `".5"`, `"1."`).
Returns `none` where `float` raises `ValueError`. -/
def parseFloatStr (cs : List Char) : Option Dec :=
  let sr : Int × List Char :=
    match cs with
    | '-' :: t => (-1, t)
    | '+' :: t => (1, t)
    | t => (1, t)
  let ip := sr.2.takeWhile (fun c => c.isDigit)
  let r2 := sr.2.dropWhile (fun c => c.isDigit)
  match r2 with
  | [] =>
    if ip = [] then none else some (mkDec sr.1 ip [])
  | '.' :: fp =>
    if fp.all (fun c => c.isDigit) && !(ip = [] && fp = []) then
      some (mkDec sr.1 ip fp)
    else none
  | _ => none

/-- Python `float(x)` on a JSON-decoded value; `Except.error` models the
`ValueError`/`TypeError` the call raises on unparseable or non-numeric input. -/
def pyFloat : Json → Except Unit Dec
  | Json.num q => Except.ok q
  | Json.str s =>
    match parseFloatStr s.toList with
    | some q => Except.ok q
    | none => Except.error ()
  | Json.bool b => Except.ok (if b then ⟨1, 0⟩ else ⟨0, 0⟩)
  | _ => Except.error ()

/-- Last binding of a key in a decoded object (`json.loads` keeps the last
occurrence of a duplicated key, and `dict` lookup then finds it). -/
def lookupLast (fs : List (String × Json)) (k : String) : Option Json :=
  ((fs.filter (fun p => p.1 == k)).getLast?).map (fun p => p.2)

/-- `dict.get(k)` on a decoded object; `Except.error` models the
`AttributeError` Python raises when `.get` is called on a non-dict. -/
def pyGet (j : Json) (k : String) : Except Unit (Option Json) :=
  match j with
  | Json.obj fs => Except.ok (lookupLast fs k)
  | _ => Except.error ()

/-- `x['k']` on a decoded object; `Except.error` models `KeyError`/`TypeError`. -/
def pyIndex (j : Json) (k : String) : Except Unit Json :=
  match j with
  | Json.obj fs =>
    match lookupLast fs k with
    | some v => Except.ok v
    | none => Except.error ()
  | _ => Except.error ()

/-- Whether `x != 0` is false in Python, for a `dict.get` result: only the
values `0`, `0.0` and `False` compare equal to `0`. -/
def pyEqZero : Option Json → Bool
  | some (Json.num q) => q.isZero
  | some (Json.bool b) => !b
  | _ => false

/-- Python `str.find(c)`: index of the first occurrence, as an `Option`. -/
def listFind : List Char → Char → Option Nat
  | [], _ => none
  | c :: cs, t => if c = t then some 0 else (listFind cs t).map (· + 1)

/-- Python `str.rfind(c)`: index of the last occurrence, as an `Option`. -/
def listRFind : List Char → Char → Option Nat
  | [], _ => none
  | c :: cs, t =>
    match listRFind cs t with
    | some j => some (j + 1)
    | none => if c = t then some 0 else none

/-- Python `str.replace(pat, rep)`: replace all non-overlapping occurrences,
scanning left to right (`pat` is nonempty at both call sites). -/
def replaceAll : Nat → List Char → List Char → List Char → List Char
  | 0, cs, _, _ => cs
  | _ + 1, [], _, _ => []
  | fuel + 1, c :: cs, pat, rep =>
    if pat.isPrefixOf (c :: cs) then
      rep ++ replaceAll fuel ((c :: cs).drop pat.length) pat rep
    else
      c :: replaceAll fuel cs pat rep

/-- Python `text.replace(pat, rep)` with adequate fuel. -/
def pyReplace (cs pat rep : List Char) : List Char :=
  replaceAll cs.length cs pat rep

/-- Digit character to its value. -/
def digitVal (c : Char) : Option Nat :=
  if c.isDigit then some (c.toNat - 48) else none

/-- `pd.to_datetime` on the ISO `YYYY-MM-DD` strings these feeds emit,
encoding the date as `y * 10000 + m * 100 + d` so that `≤` on the encoding
is chronological order. `none` where parsing raises. -/
def parseDate : List Char → Option Nat
  | [y1, y2, y3, y4, '-', m1, m2, '-', d1, d2] =>
    match digitVal y1, digitVal y2, digitVal y3, digitVal y4,
          digitVal m1, digitVal m2, digitVal d1, digitVal d2 with
    | some a, some b, some c, some d, some e, some f, some g, some h =>
      let y := ((a * 10 + b) * 10 + c) * 10 + d
      let m := e * 10 + f
      let dd := g * 10 + h
      if 1 ≤ m && m ≤ 12 && 1 ≤ dd && dd ≤ 31 then
        some (y * 10000 + m * 100 + dd)
      else none
    | _, _, _, _, _, _, _, _ => none
  | _ => none

/-! ## Canonical rows and the normalizing sort -/

/-- A normalized history row (the dict built by the eastmoney adapter, after
`pd.to_datetime` has parsed the date column). -/
structure Row where
  date : Nat
  net_value : Dec
  cumulative_value : Dec
  growth_rate : Dec
deriving DecidableEq, Repr

/-- A raw history row as first collected (`date` still the raw JSON value,
numeric cells already coerced). -/
structure RawRow where
  dateJ : Json
  net_value : Dec
  cumulative_value : Dec
  growth_rate : Dec

/-- The date ordering used to sort a series. -/
def dateLe (a b : Row) : Prop := a.date ≤ b.date

instance : DecidableRel dateLe := fun a b => Nat.decLe a.date b.date

instance : IsTotal Row dateLe := ⟨fun a b => Nat.le_total a.date b.date⟩

instance : IsTrans Row dateLe := ⟨fun _ _ _ h1 h2 => Nat.le_trans h1 h2⟩

/-- `df.sort_values('date').reset_index(drop=True)`: sort the rows ascending
by date (no deduplication). -/
def sortByDate (rows : List Row) : List Row :=
  List.insertionSort dateLe rows

/-! ## The eastmoney-new adapter (`_get_history_from_eastmoney_new`) -/

/-- An HTTP response as seen by the adapter. -/
structure Resp where
  status : Nat
  text : String

/-- A transport oracle: the outcome of the HTTP request on each attempt
(`Except.error` models a raised transport exception such as a timeout). -/
def Transport : Type := Nat → Except Unit Resp

/-- The envelope extraction of the adapter: take the substring from the
first `\x7b` through the last `\x7d` (Python
`json_str[json_str.find(...) : json_str.rfind(...) + 1]`), provided both
delimiters occur; the source's guard `start_idx == -1 or end_idx == 0`
is exactly "either delimiter is missing". -/
def emExtract (cs : List Char) : Option (List Char) :=
  match listFind cs '{', listRFind cs '}' with
  | some i, some j => some ((cs.drop i).take (j + 1 - i))
  | _, _ => none

/-- `float(item[k]) if item[k] else 0`: a falsy cell (empty string, `0`,
`null`, ...) is coerced to `0`; a truthy cell goes through `float`, whose
failure on an unparseable value propagates as an exception. -/
def coerceField (v : Json) : Except Unit Dec :=
  if pyTruthy v then pyFloat v else Except.ok ⟨0, 0⟩

/-- Build one raw row from a `LSJZList` item (the dict literal at lines
221–226 of the source): `date` keeps the raw `FSRQ` value, the three
numeric cells go through `coerceField`. Any missing key or unparseable
truthy cell raises. -/
def convItem (item : Json) : Except Unit RawRow := do
  let d ← pyIndex item "FSRQ"
  let dw ← pyIndex item "DWJZ"
  let lj ← pyIndex item "LJJZ"
  let jz ← pyIndex item "JZZZL"
  let nv ← coerceField dw
  let cv ← coerceField lj
  let gr ← coerceField jz
  Except.ok ⟨d, nv, cv, gr⟩

/-- `df['date'] = pd.to_datetime(df['date'])` on one row: the raw `FSRQ`
value must be a parseable date string, otherwise the conversion raises. -/
def parseRowDate (r : RawRow) : Except Unit Row :=
  match r.dateJ with
  | Json.str s =>
    match parseDate s.toList with
    | some n => Except.ok ⟨n, r.net_value, r.cumulative_value, r.growth_rate⟩
    | none => Except.error ()
  | _ => Except.error ()

/-- Outcome of one attempt of the eastmoney-new retry loop.  `softFail` is a
`continue` (bad status, no JSON found, API error code, missing data);
`exnFail` is a raised-and-caught exception (the branch that sleeps before
the next attempt).  Both lead to another attempt. -/
inductive AttemptRes where
  | success (rows : List Row) : AttemptRes
  | softFail : AttemptRes
  | exnFail : AttemptRes
deriving DecidableEq, Repr

/-- One attempt of the eastmoney-new adapter body (lines 191–239 of the
source), given that attempt's transport outcome. -/
def emAttempt (t : Except Unit Resp) : AttemptRes :=
  match t with
  | Except.error _ => AttemptRes.exnFail
  | Except.ok resp =>
    if resp.status ≠ 200 then AttemptRes.softFail
    else
      match emExtract resp.text.toList with
      | none => AttemptRes.softFail
      | some slice =>
        match jsonParse slice with
        | none => AttemptRes.exnFail
        | some (Json.obj fs) =>
          if !pyEqZero (lookupLast fs "ErrCode") then AttemptRes.softFail
          else
            match lookupLast fs "Data" with
            | none => AttemptRes.softFail
            | some dataV =>
              if !pyTruthy dataV then AttemptRes.softFail
              else
                match dataV with
                | Json.obj dfs =>
                  (match lookupLast dfs "LSJZList" with
                   | none => AttemptRes.softFail
                   | some lv =>
                     if !pyTruthy lv then AttemptRes.softFail
                     else
                       match lv with
                       | Json.arr items =>
                         (match items.mapM convItem with
                          | Except.error _ => AttemptRes.exnFail
                          | Except.ok raws =>
                            if raws.isEmpty then AttemptRes.softFail
                            else
                              match raws.mapM parseRowDate with
                              | Except.error _ => AttemptRes.exnFail
                              | Except.ok rows =>
                                AttemptRes.success (sortByDate rows))
                       | _ => AttemptRes.exnFail)
                | _ => AttemptRes.exnFail
        | some _ => AttemptRes.exnFail

/-- The `for attempt in range(3)` loop: run attempts until one succeeds or
the budget is exhausted; also counts the attempts performed. -/
def emLoop (tr : Transport) : Nat → Nat → Option (List Row) × Nat
  | 0, used => (none, used)
  | n + 1, used =>
    match emAttempt (tr used) with
    | AttemptRes.success rows => (some rows, used + 1)
    | _ => emLoop tr n (used + 1)

/-- `FundCrawler._get_history_from_eastmoney_new`.  `fund_code`,
`start_date` and `end_date` only parametrize the request (they are sent to
the server and never used to filter the response locally); the result is
the returned frame (or `None`) together with the number of attempts made. -/
def _get_history_from_eastmoney_new (fund_code start_date end_date : String)
    (tr : Transport) : Option (List Row) × Nat :=
  emLoop tr 3 0

/-! ## The stub adapters -/

/-- `FundCrawler._get_history_from_eastmoney_old`: builds a request, issues
it through the transport (one network call, even though the response is
never parsed — the body logs it and falls through), and returns `None`;
a transport exception is caught and also yields `None`.  The second
component counts transport calls. -/
def _get_history_from_eastmoney_old (fund_code start_date end_date : String)
    (t : Except Unit Resp) : Option (List Row) × Nat :=
  (none, 1)

/-- `FundCrawler._get_history_from_sina`: logs and returns `None` without
touching the transport.  The second component counts transport calls. -/
def _get_history_from_sina (fund_code start_date end_date : String) :
    Option (List Row) × Nat :=
  (none, 0)

/-! ## The akshare adapter (`_get_history_from_akshare`) -/

/-- A raw akshare row after the column rename: all cells still text. -/
structure AkRow where
  date : String
  net_value : String
  growth_rate : String

/-- A normalized akshare row: `pd.to_numeric(..., errors='coerce')` turns an
unparseable cell into NaN, modelled as `none`. -/
structure AkNorm where
  date : Nat
  net_value : Option Dec
  growth_rate : Option Dec
  cumulative_value : Option Dec
deriving DecidableEq, Repr

/-- `FundCrawler._get_history_from_akshare`.  The akshare call itself is the
oracle `akdf` (`Except.error` a raised exception, `Except.ok none` a `None`
frame); the body renames columns, parses dates (a failure raises and is
caught, giving `None`), coerces numerics, copies `net_value` into
`cumulative_value`, filters to `[start_date, end_date]` and sorts by date. -/
def _get_history_from_akshare (fund_code start_date end_date : String)
    (akdf : Except Unit (Option (List AkRow))) : Option (List AkNorm) :=
  match akdf with
  | Except.error _ => none
  | Except.ok none => none
  | Except.ok (some rows) =>
    if rows.isEmpty then none
    else
      match rows.mapM (fun r =>
              (parseDate r.date.toList).map (fun d =>
                AkNorm.mk d (parseFloatStr r.net_value.toList)
                  (parseFloatStr r.growth_rate.toList)
                  (parseFloatStr r.net_value.toList))),
            parseDate start_date.toList, parseDate end_date.toList with
      | some conv, some sd, some ed =>
        some (List.insertionSort (fun a b => a.date ≤ b.date)
          (conv.filter (fun r => decide (sd ≤ r.date) && decide (r.date ≤ ed))))
      | _, _, _ => none

/-! ## The quick-quote fetch (`get_fund_basic_info`) -/

/-- The dict returned by `get_fund_basic_info` on success: exactly six keys.
The three text-valued keys keep the raw `dict.get` result (`none` models
Python `None` for an absent key). -/
structure FundInfo where
  code : Option Json
  name : Option Json
  net_value : Dec
  estimate_value : Dec
  estimate_growth_rate : Dec
  update_time : Option Json

/-- The strings stripped from the `fundgz` JSONP envelope. -/
def jsonpgzOpen : List Char := ['j', 's', 'o', 'n', 'p', 'g', 'z', '(']

/-- The closing fragment stripped from the `fundgz` JSONP envelope. -/
def jsonpgzClose : List Char := [')', ';']

/-- The numeric extraction `float(data.get(k, 0))`: an absent key defaults
to the integer `0` before coercion. -/
def infoNum (data : Json) (k : String) : Except Unit Dec := do
  let v ← pyGet data k
  pyFloat (v.getD (Json.num ⟨0, 0⟩))

/-- The text extraction `data.get(k)` (Python `None` when absent). -/
def infoTxt (data : Json) (k : String) : Except Unit (Option Json) :=
  pyGet data k

/-- `FundCrawler.get_fund_basic_info`, over the transport outcome for the
single request.  The body strips the `jsonpgz(`/`);` wrapper via
`str.replace`, parses the remainder with `json.loads`, and builds the
six-key dict; the enclosing `try`/`except Exception` turns every raised
error (transport, parse, coercion) into `None`. -/
def get_fund_basic_info (fund_code : String) (resp : Except Unit String) :
    Option FundInfo :=
  match resp with
  | Except.error _ => none
  | Except.ok text =>
    let json_str := pyReplace (pyReplace text.toList jsonpgzOpen []) jsonpgzClose []
    match jsonParse json_str with
    | none => none
    | some data =>
      match infoTxt data "fundcode", infoTxt data "name",
            infoNum data "dwjz", infoNum data "gsz", infoNum data "gszzl",
            infoTxt data "gztime" with
      | Except.ok c, Except.ok n, Except.ok nv, Except.ok ev, Except.ok gr,
        Except.ok ut => some ⟨c, n, nv, ev, gr, ut⟩
      | _, _, _, _, _, _ => none

/-! ## The fallback orchestrator (`get_fund_history_data`) -/

/-- The outcome of calling one data source: a raised exception, or the
returned frame (`none` models a returned `None`). -/
inductive PRes where
  | exc : PRes
  | ret (df : Option (List Row)) : PRes
deriving DecidableEq, Repr

/-- Whether a provider outcome is the success the loop accepts:
`df is not None and not df.empty`. -/
def provOk : PRes → Bool
  | PRes.ret (some df) => !df.isEmpty
  | _ => false

/-- The provider loop (lines 108–122 of the source): return the first
non-`None`, nonempty frame; on an exception or an empty/`None` frame, log
and continue; `None` once the list is exhausted.  Also counts how many
data sources were invoked. -/
def getHistLoop : List PRes → Nat → Option (List Row) × Nat
  | [], invoked => (none, invoked)
  | p :: ps, invoked =>
    match p with
    | PRes.ret (some df) =>
      if df.isEmpty then getHistLoop ps (invoked + 1)
      else (some df, invoked + 1)
    | _ => getHistLoop ps (invoked + 1)

/-- `FundCrawler.get_fund_history_data`, over the ordered list of provider
outcomes (the data sources are tried strictly in list order, so their
behaviour on this request is an ordered list of `PRes`). -/
def get_fund_history_data (fund_code : String) (providers : List PRes) :
    Option (List Row) × Nat :=
  getHistLoop providers 0

/-! ## Helper lemmas -/

/-- Whether an attempt outcome is a success. -/
def isSuccess : AttemptRes → Bool
  | AttemptRes.success _ => true
  | _ => false

theorem emLoop_succ (tr : Transport) (n used : Nat) :
    emLoop tr (n + 1) used =
      match emAttempt (tr used) with
      | AttemptRes.success rows => (some rows, used + 1)
      | _ => emLoop tr n (used + 1) := rfl

/-- The retry loop stops at the first successful attempt, whatever the
classes of the earlier failures. -/
theorem emLoop_first_success (tr : Transport) (n : Nat) :
    ∀ used k rows, k < n →
      (∀ j, j < k → isSuccess (emAttempt (tr (used + j))) = false) →
      emAttempt (tr (used + k)) = AttemptRes.success rows →
      emLoop tr n used = (some rows, used + k + 1) := by
  induction n with
  | zero => intro used k rows hk; omega
  | succ n ih =>
    intro used k rows hk hfail hsucc
    cases k with
    | zero =>
      rw [emLoop_succ]
      have h0 : emAttempt (tr used) = AttemptRes.success rows := by
        simpa using hsucc
      rw [h0]
    | succ k =>
      have h0 : isSuccess (emAttempt (tr used)) = false := by
        simpa using hfail 0 (Nat.succ_pos k)
      rw [emLoop_succ]
      cases e0 : emAttempt (tr used) with
      | success r => rw [e0] at h0; simp [isSuccess] at h0
      | softFail =>
        have := ih (used + 1) k rows (by omega)
          (fun j hj => by
            have := hfail (j + 1) (by omega)
            simpa [Nat.add_assoc, Nat.add_comm, Nat.add_left_comm] using this)
          (by simpa [Nat.add_assoc, Nat.add_comm, Nat.add_left_comm] using hsucc)
        have harith : used + 1 + k + 1 = used + (k + 1) + 1 := by omega
        rw [this, harith]
      | exnFail =>
        have := ih (used + 1) k rows (by omega)
          (fun j hj => by
            have := hfail (j + 1) (by omega)
            simpa [Nat.add_assoc, Nat.add_comm, Nat.add_left_comm] using this)
          (by simpa [Nat.add_assoc, Nat.add_comm, Nat.add_left_comm] using hsucc)
        have harith : used + 1 + k + 1 = used + (k + 1) + 1 := by omega
        rw [this, harith]

/-- The retry loop performs all its attempts when none succeeds. -/
theorem emLoop_all_fail (tr : Transport) (n : Nat) :
    ∀ used, (∀ j, j < n → isSuccess (emAttempt (tr (used + j))) = false) →
      emLoop tr n used = (none, used + n) := by
  induction n with
  | zero => intro used _; rfl
  | succ n ih =>
    intro used hfail
    have h0 : isSuccess (emAttempt (tr used)) = false := by
      simpa using hfail 0 (Nat.succ_pos n)
    rw [emLoop_succ]
    cases e0 : emAttempt (tr used) with
    | success r => rw [e0] at h0; simp [isSuccess] at h0
    | softFail =>
      rw [ih (used + 1) (fun j hj => by
        have := hfail (j + 1) (by omega)
        simpa [Nat.add_assoc, Nat.add_comm, Nat.add_left_comm] using this)]
      have harith : used + 1 + n = used + (n + 1) := by omega
      rw [harith]
    | exnFail =>
      rw [ih (used + 1) (fun j hj => by
        have := hfail (j + 1) (by omega)
        simpa [Nat.add_assoc, Nat.add_comm, Nat.add_left_comm] using this)]
      have harith : used + 1 + n = used + (n + 1) := by omega
      rw [harith]

/-- Provider outcomes that are not accepted are skipped, incrementing the
invocation counter. -/
theorem getHistLoop_append (pre rest : List PRes) (n : Nat)
    (hpre : ∀ p ∈ pre, provOk p = false) :
    getHistLoop (pre ++ rest) n = getHistLoop rest (n + pre.length) := by
  induction pre generalizing n with
  | nil => simp [List.nil_append]
  | cons p ps ih =>
    have hp : provOk p = false := hpre p (List.mem_cons_self p ps)
    have hps : ∀ q ∈ ps, provOk q = false := fun q hq =>
      hpre q (List.mem_cons_of_mem p hq)
    cases p with
    | exc =>
      rw [List.cons_append]
      show getHistLoop (ps ++ rest) (n + 1) = _
      rw [ih (n + 1) hps]
      exact congrArg _ (by simp [List.length_cons]; omega)
    | ret df =>
      cases df with
      | none =>
        rw [List.cons_append]
        show getHistLoop (ps ++ rest) (n + 1) = _
        rw [ih (n + 1) hps]
        exact congrArg _ (by simp [List.length_cons]; omega)
      | some l =>
        have hl : l.isEmpty = true := by simpa [provOk] using hp
        rw [List.cons_append]
        show (if l.isEmpty then getHistLoop (ps ++ rest) (n + 1)
              else (some l, n + 1)) = _
        rw [hl, if_pos rfl, ih (n + 1) hps]
        exact congrArg _ (by simp [List.length_cons]; omega)

/-- The provider loop yields `none` or a nonempty frame. -/
theorem getHistLoop_result (ps : List PRes) (n : Nat) :
    (getHistLoop ps n).1 = none ∨
      ∃ rows, rows ≠ [] ∧ (getHistLoop ps n).1 = some rows := by
  induction ps generalizing n with
  | nil => exact Or.inl rfl
  | cons p ps ih =>
    cases p with
    | exc => simpa [getHistLoop] using ih (n + 1)
    | ret df =>
      cases df with
      | none => simpa [getHistLoop] using ih (n + 1)
      | some l =>
        by_cases hl : l.isEmpty = true
        · simpa [getHistLoop, hl] using ih (n + 1)
        · refine Or.inr ⟨l, ?_, ?_⟩
          · intro h; subst h; exact hl rfl
          · simp [getHistLoop, hl]

/-! ## Claims about the fallback orchestrator -/

/-- C1: for every ordered provider list and every fund request, if provider
`k` (position `pre.length` in the list) returns a non-empty well-formed
series while every earlier provider fails — raises, returns `None`, or
returns an empty frame — then `get_fund_history_data` returns that series
unmodified, and the invocation counter stops at `k + 1`: providers `k + 1`
and later are never invoked. -/
theorem C1_short_circuit (fund_code : String) (pre post : List PRes)
    (rows : List Row) (hpre : ∀ p ∈ pre, provOk p = false) (hrows : rows ≠ []) :
    get_fund_history_data fund_code (pre ++ PRes.ret (some rows) :: post) =
      (some rows, pre.length + 1) := by
  unfold get_fund_history_data
  rw [getHistLoop_append pre _ 0 hpre]
  have hne : rows.isEmpty = false := by
    cases rows with
    | nil => exact absurd rfl hrows
    | cons a l => rfl
  show (if rows.isEmpty then getHistLoop post (0 + pre.length + 1)
        else (some rows, 0 + pre.length + 1)) = _
  rw [hne]
  simp

theorem C1_short_circuit_witness :
    get_fund_history_data "110022"
      ([PRes.exc, PRes.ret none, PRes.ret (some [])] ++
        PRes.ret (some [⟨20240103, ⟨1234, 3⟩, ⟨3318, 3⟩, ⟨49, 2⟩⟩]) :: [PRes.exc]) =
      (some [⟨20240103, ⟨1234, 3⟩, ⟨3318, 3⟩, ⟨49, 2⟩⟩], 4) :=
  C1_short_circuit "110022" [PRes.exc, PRes.ret none, PRes.ret (some [])]
    [PRes.exc] [⟨20240103, ⟨1234, 3⟩, ⟨3318, 3⟩, ⟨49, 2⟩⟩] (by decide) (by decide)

/-- C3: the history pipeline never returns an empty series — for every fund
request and every ordered list of provider outcomes, the result is `None`
(the total-failure signal) or a non-empty frame; an empty provider result
is skipped as a failure, never returned. -/
theorem C3_never_empty (fund_code : String) (providers : List PRes) :
    (get_fund_history_data fund_code providers).1 = none ∨
      ∃ rows, rows ≠ [] ∧
        (get_fund_history_data fund_code providers).1 = some rows :=
  getHistLoop_result providers 0

/-- C8 counterexample: two exhausted runs whose single providers fail for
different reasons — one raises an exception, the other returns `None` —
produce the identical result, the bare `None`.  The returned value is a
function of nothing but "all failed", so it cannot carry any per-provider
failure reason; the reasons only reach the log.  This refutes the claim
that the total-failure value carries each tried provider's reason. -/
theorem C8_counterexample :
    get_fund_history_data "110022" [PRes.exc] =
        get_fund_history_data "110022" [PRes.ret none] ∧
      (get_fund_history_data "110022" [PRes.exc]).1 = none := by
  decide

/-- C8 amended: whenever every provider in the list fails or returns an
empty result, `get_fund_history_data` returns the bare failure value `None`
(after invoking every provider); no per-provider diagnostic is carried in
the returned value — the reasons are only logged. -/
theorem C8_all_failed_returns_none (fund_code : String) (providers : List PRes)
    (h : ∀ p ∈ providers, provOk p = false) :
    get_fund_history_data fund_code providers = (none, providers.length) := by
  unfold get_fund_history_data
  have := getHistLoop_append providers [] 0 h
  rw [List.append_nil] at this
  rw [this]
  show (none, 0 + providers.length) = _
  exact congrArg _ (by omega)

theorem C8_all_failed_returns_none_witness :
    get_fund_history_data "110022" [PRes.exc, PRes.ret none, PRes.ret (some [])] =
      (none, 3) :=
  C8_all_failed_returns_none "110022"
    [PRes.exc, PRes.ret none, PRes.ret (some [])] (by decide)

/-! ## Claims about the retry loop and the adapters -/

/-- A well-formed eastmoney response holding one history row
(`2024-01-03`, unit value `1.234`, cumulative `3.318`, growth `0.49`). -/
def emGoodText : String :=
  "cb(\x7b\"ErrCode\":0,\"Data\":\x7b\"LSJZList\":[\x7b\"FSRQ\":\"2024-01-03\",\"DWJZ\":\"1.234\",\"LJJZ\":\"3.318\",\"JZZZL\":\"0.49\"\x7d]\x7d\x7d)"

/-- An HTTP-200, valid-JSON, `ErrCode = 0` response whose expected `Data`
field is absent — the spec's deterministic `SchemaMismatch` failure. -/
def emSchemaMismatchText : String := "cb(\x7b\"ErrCode\":0\x7d)"

/-- A transport whose first attempt yields the schema-mismatch response and
whose later attempts yield the good response. -/
def trC2 : Transport := fun n =>
  if n = 0 then Except.ok ⟨200, emSchemaMismatchText⟩
  else Except.ok ⟨200, emGoodText⟩

/-- C2 counterexample: the first attempt fails with the deterministic
`SchemaMismatch` outcome (HTTP 200, valid JSON, `ErrCode` 0, `Data`
absent), yet the loop performs a second attempt and returns its rows:
the attempt counter reads 2, not 1, so a deterministic failure is
followed by an additional attempt, contrary to the claim that the retry
controller performs zero additional attempts after `SchemaMismatch`,
`ParseFailure` or `NotImplemented`. -/
theorem C2_counterexample :
    emAttempt (trC2 0) = AttemptRes.softFail ∧
      _get_history_from_eastmoney_new "110022" "2024-01-01" "2024-12-31" trC2 =
        (some [⟨20240103, ⟨1234, 3⟩, ⟨3318, 3⟩, ⟨49, 2⟩⟩], 2) := by
  constructor
  · rfl
  · rfl

/-- C2 amended: the eastmoney retry loop performs up to 3 attempts and
retries after every failed attempt regardless of the failure's class —
transport error, malformed/absent JSON, API error code, or missing data
alike (it sleeps only after exception-class failures); the first attempt
to succeed, at any index `k < 3`, ends the loop with `k + 1` attempts
performed and that attempt's rows returned. -/
theorem C2_retries_every_class (fund_code start_date end_date : String)
    (tr : Transport) (k : Nat) (rows : List Row) (hk : k < 3)
    (hfail : ∀ j, j < k → isSuccess (emAttempt (tr j)) = false)
    (hsucc : emAttempt (tr k) = AttemptRes.success rows) :
    _get_history_from_eastmoney_new fund_code start_date end_date tr =
      (some rows, k + 1) := by
  unfold _get_history_from_eastmoney_new
  have := emLoop_first_success tr 3 0 k rows hk
    (fun j hj => by simpa using hfail j hj) (by simpa using hsucc)
  simpa using this

theorem C2_retries_every_class_witness :
    _get_history_from_eastmoney_new "110022" "2024-01-01" "2024-12-31" trC2 =
      (some [⟨20240103, ⟨1234, 3⟩, ⟨3318, 3⟩, ⟨49, 2⟩⟩], 2) :=
  C2_retries_every_class "110022" "2024-01-01" "2024-12-31" trC2 1
    [⟨20240103, ⟨1234, 3⟩, ⟨3318, 3⟩, ⟨49, 2⟩⟩] (by omega)
    (fun j hj => by
      have hj0 : j = 0 := by omega
      subst hj0
      rfl)
    (by rfl)

/-- C5 counterexample: `_get_history_from_eastmoney_old` is a structurally
defined but unimplemented adapter (its body says so and always returns
`None`), yet it issues one transport request on every input — the
transport-call counter is 1, not 0.  This refutes the claim that every
unimplemented adapter returns its failure without invoking the transport. -/
theorem C5_counterexample :
    (_get_history_from_eastmoney_old "110022" "2024-01-01" "2024-12-31"
        (Except.ok ⟨200, "x"⟩)).2 ≠ 0 ∧
      (_get_history_from_eastmoney_old "110022" "2024-01-01" "2024-12-31"
        (Except.ok ⟨200, "x"⟩)).1 = none := by
  constructor
  · intro h; exact Nat.one_ne_zero h
  · rfl

/-- C5 amended: of the two unimplemented adapters, `_get_history_from_sina`
returns `None` immediately with zero transport calls, but
`_get_history_from_eastmoney_old` builds and issues one request (whose
response it only logs) before returning `None` — one transport call on
every input, whatever the transport outcome. -/
theorem C5_stub_adapters (fund_code start_date end_date : String)
    (t : Except Unit Resp) :
    _get_history_from_eastmoney_old fund_code start_date end_date t = (none, 1) ∧
      _get_history_from_sina fund_code start_date end_date = (none, 0) :=
  ⟨rfl, rfl⟩

/-- An eastmoney response whose row has an unparseable non-empty `DWJZ`
cell. -/
def emBadFieldText : String :=
  "cb(\x7b\"ErrCode\":0,\"Data\":\x7b\"LSJZList\":[\x7b\"FSRQ\":\"2024-01-03\",\"DWJZ\":\"abc\",\"LJJZ\":\"3.318\",\"JZZZL\":\"0.49\"\x7d]\x7d\x7d)"

/-- C4 counterexample: a numeric field that is present and non-empty but
unparseable (`DWJZ = "abc"`) is not coerced to `0.0` — `float` raises, the
row conversion fails, and the whole fetch attempt fails with the
exception outcome, contrary to the claim that such a field is coerced to
`0.0` with the row kept. -/
theorem C4_counterexample :
    convItem (Json.obj [("FSRQ", Json.str "2024-01-03"),
        ("DWJZ", Json.str "abc"), ("LJJZ", Json.str "3.318"),
        ("JZZZL", Json.str "0.49")]) = Except.error () ∧
      emAttempt (Except.ok ⟨200, emBadFieldText⟩) = AttemptRes.exnFail := by
  constructor
  · rfl
  · rfl

/-- C4 amended: a numeric field that is present but *falsy* — in
particular the empty string — is coerced to `0.0` and the row is kept;
but a present, non-empty, unparseable field raises instead, failing the
whole fetch attempt rather than being coerced (see the counterexample). -/
theorem C4_empty_field_coerced (d dw lj jz : Json)
    (hdw : pyTruthy dw = false) (hlj : pyTruthy lj = false)
    (hjz : pyTruthy jz = false) :
    convItem (Json.obj [("FSRQ", d), ("DWJZ", dw), ("LJJZ", lj),
        ("JZZZL", jz)]) = Except.ok ⟨d, ⟨0, 0⟩, ⟨0, 0⟩, ⟨0, 0⟩⟩ := by
  have e1 : coerceField dw = Except.ok ⟨0, 0⟩ := by
    unfold coerceField; rw [hdw]; rfl
  have e2 : coerceField lj = Except.ok ⟨0, 0⟩ := by
    unfold coerceField; rw [hlj]; rfl
  have e3 : coerceField jz = Except.ok ⟨0, 0⟩ := by
    unfold coerceField; rw [hjz]; rfl
  unfold convItem
  have hd : pyIndex (Json.obj [("FSRQ", d), ("DWJZ", dw), ("LJJZ", lj),
      ("JZZZL", jz)]) "FSRQ" = Except.ok d := rfl
  have h1 : pyIndex (Json.obj [("FSRQ", d), ("DWJZ", dw), ("LJJZ", lj),
      ("JZZZL", jz)]) "DWJZ" = Except.ok dw := rfl
  have h2 : pyIndex (Json.obj [("FSRQ", d), ("DWJZ", dw), ("LJJZ", lj),
      ("JZZZL", jz)]) "LJJZ" = Except.ok lj := rfl
  have h3 : pyIndex (Json.obj [("FSRQ", d), ("DWJZ", dw), ("LJJZ", lj),
      ("JZZZL", jz)]) "JZZZL" = Except.ok jz := rfl
  rw [hd, h1, h2, h3]
  show (Except.bind (coerceField dw) (fun nv =>
      Except.bind (coerceField lj) (fun cv =>
        Except.bind (coerceField jz) (fun gr =>
          Except.ok (RawRow.mk d nv cv gr))))) =
    Except.ok (RawRow.mk d ⟨0, 0⟩ ⟨0, 0⟩ ⟨0, 0⟩)
  rw [e1]
  show (Except.bind (coerceField lj) (fun cv =>
      Except.bind (coerceField jz) (fun gr =>
        Except.ok (RawRow.mk d ⟨0, 0⟩ cv gr)))) =
    Except.ok (RawRow.mk d ⟨0, 0⟩ ⟨0, 0⟩ ⟨0, 0⟩)
  rw [e2]
  show (Except.bind (coerceField jz) (fun gr =>
      Except.ok (RawRow.mk d ⟨0, 0⟩ ⟨0, 0⟩ gr))) =
    Except.ok (RawRow.mk d ⟨0, 0⟩ ⟨0, 0⟩ ⟨0, 0⟩)
  rw [e3]
  rfl

theorem C4_empty_field_coerced_witness :
    convItem (Json.obj [("FSRQ", Json.str "2024-01-03"),
        ("DWJZ", Json.str ""), ("LJJZ", Json.str ""),
        ("JZZZL", Json.str "")]) =
      Except.ok ⟨Json.str "2024-01-03", ⟨0, 0⟩, ⟨0, 0⟩, ⟨0, 0⟩⟩ :=
  C4_empty_field_coerced (Json.str "2024-01-03") (Json.str "") (Json.str "")
    (Json.str "") rfl rfl rfl

/-! ## Claims about the normalizing sort and the date filter -/

/-- C6 counterexample: two distinct rows sharing the date `2024-01-03` both
survive `sort_values('date')` — the output still has two rows with that
date, and it is not the one-element "keep the last occurrence" series the
claim describes: the source sorts but never de-duplicates. -/
theorem C6_counterexample :
    (sortByDate [⟨20240103, ⟨1, 0⟩, ⟨1, 0⟩, ⟨1, 0⟩⟩,
        ⟨20240103, ⟨2, 0⟩, ⟨2, 0⟩, ⟨2, 0⟩⟩]).map Row.date =
        [20240103, 20240103] ∧
      sortByDate [⟨20240103, ⟨1, 0⟩, ⟨1, 0⟩, ⟨1, 0⟩⟩,
          ⟨20240103, ⟨2, 0⟩, ⟨2, 0⟩, ⟨2, 0⟩⟩] ≠
        [⟨20240103, ⟨2, 0⟩, ⟨2, 0⟩, ⟨2, 0⟩⟩] := by
  decide

/-- C6 amended: the normalizing sort orders the series non-decreasingly by
date and returns a permutation of its input — every input row, duplicate
dates included, appears in the output; no de-duplication happens. -/
theorem C6_sorted_no_dedup (rows : List Row) :
    List.Sorted dateLe (sortByDate rows) ∧ List.Perm (sortByDate rows) rows :=
  ⟨List.sorted_insertionSort dateLe rows, List.perm_insertionSort dateLe rows⟩

/-- An eastmoney response carrying a row dated outside the requested
range. -/
def emOutOfRangeText : String :=
  "cb(\x7b\"ErrCode\":0,\"Data\":\x7b\"LSJZList\":[\x7b\"FSRQ\":\"2024-05-05\",\"DWJZ\":\"1.0\",\"LJJZ\":\"1.0\",\"JZZZL\":\"0\"\x7d]\x7d\x7d)"

/-- A transport that always returns the out-of-range response. -/
def trC7 : Transport := fun _ => Except.ok ⟨200, emOutOfRangeText⟩

/-- C7 counterexample: requesting the range `2024-01-01 .. 2024-01-10`
through the eastmoney adapter, a (range-ignoring) server response dated
`2024-05-05` is returned as-is — the adapter forwards the bounds to the
server but applies no local date filter, so a row outside `[start, end]`
appears in the returned series. -/
theorem C7_counterexample :
    (_get_history_from_eastmoney_new "110022" "2024-01-01" "2024-01-10"
        trC7).1 = some [⟨20240505, ⟨10, 1⟩, ⟨10, 1⟩, ⟨0, 0⟩⟩] ∧
      parseDate "2024-01-01".toList = some 20240101 ∧
      parseDate "2024-01-10".toList = some 20240110 ∧
      ¬(20240101 ≤ 20240505 ∧ 20240505 ≤ 20240110) := by
  decide

/-- C7 amended: the akshare path does filter — every row of a series it
returns has its date inside `[start_date, end_date]` — but the
eastmoney-new path performs no local date filtering (see the
counterexample), so the property does not hold of every returned series. -/
theorem C7_akshare_filters (fund_code start_date end_date : String)
    (akdf : Except Unit (Option (List AkRow))) (out : List AkNorm) (r : AkNorm)
    (sd ed : Nat)
    (hsd : parseDate start_date.toList = some sd)
    (hed : parseDate end_date.toList = some ed)
    (hout : _get_history_from_akshare fund_code start_date end_date akdf =
      some out)
    (hr : r ∈ out) :
    sd ≤ r.date ∧ r.date ≤ ed := by
  unfold _get_history_from_akshare at hout
  split at hout
  · exact absurd hout (by simp)
  · exact absurd hout (by simp)
  · rename_i rows
    by_cases hre : rows.isEmpty = true
    · rw [if_pos hre] at hout; exact absurd hout (by simp)
    · rw [if_neg hre] at hout
      split at hout
      · rename_i conv sd0 ed0 hconv hsd0 hed0
        have hsdeq : sd0 = sd := by
          have := hsd0.symm.trans hsd
          exact Option.some.inj this
        have hedeq : ed0 = ed := by
          have := hed0.symm.trans hed
          exact Option.some.inj this
        have hout2 := Option.some.inj hout
        rw [← hout2] at hr
        have hmem := (List.perm_insertionSort
          (fun a b : AkNorm => a.date ≤ b.date) _).mem_iff.mp hr
        have hcond := (List.mem_filter.mp hmem).2
        have hc1 : decide (sd0 ≤ r.date) = true := Bool.and_elim_left hcond
        have hc2 : decide (r.date ≤ ed0) = true := Bool.and_elim_right hcond
        subst hsdeq hedeq
        exact ⟨of_decide_eq_true hc1, of_decide_eq_true hc2⟩
      · exact absurd hout (by simp)

theorem C7_akshare_filters_witness :
    20240101 ≤ 20240103 ∧ 20240103 ≤ 20240110 :=
  C7_akshare_filters "110022" "2024-01-01" "2024-01-10"
    (Except.ok (some [⟨"2024-01-03", "1.0", "0.5"⟩]))
    [⟨20240103, some ⟨10, 1⟩, some ⟨5, 1⟩, some ⟨10, 1⟩⟩]
    ⟨20240103, some ⟨10, 1⟩, some ⟨5, 1⟩, some ⟨10, 1⟩⟩
    20240101 20240110 rfl rfl (by decide) (by decide)

/-! ## Claims about envelope extraction and the quick-quote fetch -/

theorem listFind_append (l r : List Char) (t : Char) (h : t ∉ l) :
    listFind (l ++ r) t = (listFind r t).map (· + l.length) := by
  induction l with
  | nil =>
    rw [List.nil_append]
    cases hf : listFind r t <;> simp [hf]
  | cons c cs ih =>
    have hct : ¬(c = t) := fun hc => h (hc ▸ List.mem_cons_self c cs)
    have hcs : t ∉ cs := fun hm => h (List.mem_cons_of_mem c hm)
    rw [List.cons_append]
    show (if c = t then some 0
          else (listFind (cs ++ r) t).map (· + 1)) = _
    rw [if_neg hct, ih hcs]
    cases listFind r t <;> simp [Nat.add_assoc]

theorem listRFind_append (l r : List Char) (t : Char) :
    listRFind (l ++ r) t =
      match listRFind r t with
      | some j => some (l.length + j)
      | none => listRFind l t := by
  induction l with
  | nil =>
    rw [List.nil_append]
    cases hf : listRFind r t <;> simp [hf, listRFind]
  | cons c cs ih =>
    rw [List.cons_append]
    show (match listRFind (cs ++ r) t with
          | some j => some (j + 1)
          | none => if c = t then some 0 else none) = _
    rw [ih]
    cases hr : listRFind r t with
    | some j => exact congrArg some (by simp [List.length_cons]; omega)
    | none => rfl

/-- C9: for every JSONP envelope `cb({mid})` — any callback name `cb` not
itself containing `\x7b`, any body delimited by the outer braces — the
adapter's extraction (first `\x7b` through last `\x7d`, taken whenever both
exist, which here implies the first precedes the last) returns exactly the
brace-delimited inner JSON text, which the adapter then hands to
`json.loads`. -/
theorem C9_jsonp_extraction (cb mid : List Char) (hcb : '{' ∉ cb) :
    emExtract (cb ++ '(' :: '{' :: (mid ++ ['}', ')'])) =
      some ('{' :: (mid ++ ['}'])) := by
  unfold emExtract
  have h1 : listFind ('(' :: '{' :: (mid ++ ['}', ')'])) '{' = some 1 := rfl
  have hfind : listFind (cb ++ '(' :: '{' :: (mid ++ ['}', ')'])) '{' =
      some (1 + cb.length) := by
    rw [listFind_append _ _ _ hcb, h1]
    rfl
  have hassoc : cb ++ '(' :: '{' :: (mid ++ ['}', ')']) =
      ((cb ++ '(' :: '{' :: mid) ++ ['}']) ++ [')'] := by
    simp [List.append_assoc]
  have hrfind : listRFind (cb ++ '(' :: '{' :: (mid ++ ['}', ')'])) '}' =
      some ((cb ++ '(' :: '{' :: mid).length) := by
    rw [hassoc, listRFind_append _ [')'], listRFind_append _ ['}']]
    rfl
  rw [hfind, hrfind]
  show some (List.take ((cb ++ '(' :: '{' :: mid).length + 1 - (1 + cb.length))
      (List.drop (1 + cb.length) (cb ++ '(' :: '{' :: (mid ++ ['}', ')'])))) =
    some ('{' :: (mid ++ ['}']))
  have hlen1 : (cb ++ '(' :: '{' :: mid).length = cb.length + (mid.length + 2) := by
    simp [List.length_append, List.length_cons]
  have harith : (cb ++ '(' :: '{' :: mid).length + 1 - (1 + cb.length) =
      mid.length + 2 := by
    rw [hlen1]; omega
  rw [harith]
  have hsplit : cb ++ '(' :: '{' :: (mid ++ ['}', ')']) =
      (cb ++ ['(']) ++ ('{' :: (mid ++ ['}', ')'])) := by
    simp [List.append_assoc]
  have hdrop : (cb ++ '(' :: '{' :: (mid ++ ['}', ')'])).drop (1 + cb.length) =
      '{' :: (mid ++ ['}', ')']) := by
    rw [hsplit]
    have : 1 + cb.length = (cb ++ ['(']).length := by
      simp [List.length_append]; omega
    rw [this, List.drop_left]
  rw [hdrop]
  have hsplit2 : '{' :: (mid ++ ['}', ')']) =
      ('{' :: (mid ++ ['}'])) ++ [')'] := by
    simp
  rw [hsplit2]
  have hlen2 : mid.length + 2 = ('{' :: (mid ++ ['}'])).length := by
    simp [List.length_cons, List.length_append]
  rw [hlen2, List.take_left]

theorem C9_jsonp_extraction_witness :
    emExtract (['j', 'Q'] ++ '(' :: '{' :: (['"', 'a', '"', ':', '1'] ++ ['}', ')'])) =
      some ('{' :: (['"', 'a', '"', ':', '1'] ++ ['}'])) :=
  C9_jsonp_extraction ['j', 'Q'] ['"', 'a', '"', ':', '1'] (by decide)

/-- C10: `get_fund_basic_info` is total over every transport and parse
outcome — the `try`/`except Exception` turns every raised error into the
failure value `None`, and a successful run returns the six-key record
(`code`, `name`, `net_value`, `estimate_value`, `estimate_growth_rate`,
`update_time`); when the parsed object lacks the numeric keys, `get(k, 0)`
defaults them so the numeric fields are `0.0`. -/
theorem C10_basic_info_shape (fund_code : String) (resp : Except Unit String) :
    (get_fund_basic_info fund_code resp = none ∨
      ∃ info, get_fund_basic_info fund_code resp = some info) ∧
    (∀ text fs, resp = Except.ok text →
      jsonParse (pyReplace (pyReplace text.toList jsonpgzOpen []) jsonpgzClose []) =
        some (Json.obj fs) →
      lookupLast fs "dwjz" = none → lookupLast fs "gsz" = none →
      lookupLast fs "gszzl" = none →
      get_fund_basic_info fund_code resp =
        some ⟨lookupLast fs "fundcode", lookupLast fs "name", ⟨0, 0⟩, ⟨0, 0⟩,
          ⟨0, 0⟩, lookupLast fs "gztime"⟩) := by
  constructor
  · cases h : get_fund_basic_info fund_code resp with
    | none => exact Or.inl rfl
    | some info => exact Or.inr ⟨info, rfl⟩
  · intro text fs hresp hparse h1 h2 h3
    subst hresp
    simp only [get_fund_basic_info]
    rw [hparse]
    have e1 : infoNum (Json.obj fs) "dwjz" = Except.ok ⟨0, 0⟩ := by
      show pyFloat ((lookupLast fs "dwjz").getD (Json.num ⟨0, 0⟩)) =
        Except.ok ⟨0, 0⟩
      rw [h1]
      rfl
    have e2 : infoNum (Json.obj fs) "gsz" = Except.ok ⟨0, 0⟩ := by
      show pyFloat ((lookupLast fs "gsz").getD (Json.num ⟨0, 0⟩)) =
        Except.ok ⟨0, 0⟩
      rw [h2]
      rfl
    have e3 : infoNum (Json.obj fs) "gszzl" = Except.ok ⟨0, 0⟩ := by
      show pyFloat ((lookupLast fs "gszzl").getD (Json.num ⟨0, 0⟩)) =
        Except.ok ⟨0, 0⟩
      rw [h3]
      rfl
    simp only [infoTxt, pyGet, e1, e2, e3]

theorem C10_basic_info_shape_witness :
    get_fund_basic_info "110022"
        (Except.ok "jsonpgz(\x7b\"fundcode\":\"110022\"\x7d);") =
      some ⟨some (Json.str "110022"), none, ⟨0, 0⟩, ⟨0, 0⟩, ⟨0, 0⟩, none⟩ :=
  (C10_basic_info_shape "110022"
      (Except.ok "jsonpgz(\x7b\"fundcode\":\"110022\"\x7d);")).2
    "jsonpgz(\x7b\"fundcode\":\"110022\"\x7d);"
    [("fundcode", Json.str "110022")] rfl (by rfl) rfl rfl rfl

end FundCrawler
